import Mathlib

/-!
Verification of the timed polling-and-export data acquisition loop of the
electrochemical_eval repository, shallowly embedded from the Python sources
`CIC_pH_record_data.py`, `unified_data_collector.py`, `data_collector.py`
and `waveform_parameters.py`.
-/

namespace ElectroEval

/-- Waveform configuration, from `waveformParameters` in
`waveform_parameters.py`: number of cycles (`numPulses`), inter-pulse
interval and per-polarity pulse widths (measured here in polling ticks of
the acquisition sub-loops), current amplitudes in amperes as rationals,
and the `anodicFirst` flag. -/
structure WaveCfg where
  numPulses : Nat
  interPulseInterval : Nat
  anodicPulseWidth : Nat
  cathodicPulseWidth : Nat
  anodicAmp : Rat
  cathodicAmp : Rat
  anodicFirst : Bool
deriving DecidableEq, Repr

/-- Observable instrument-level events of one run of `main` in
`CIC_pH_record_data.py`, with the Keithley handle present: writing a source
level (`smu.source.level = ...`), switching the output on
(`smu.source.output = smu.ON`), and collecting one data point tagged with
its cycle number. -/
inductive Event where
  | setLevel : Rat → Event
  | outputOn : Event
  | sample : Nat → Event
deriving DecidableEq, Repr

/-- The `experiment_running` flag as read at global poll index `n`.
`abort = some k` models the window-close handler flipping the flag to
false from the k-th poll onwards; `abort = none` models a run where the
flag stays true throughout. -/
def running (abort : Option Nat) (n : Nat) : Bool :=
  match abort with
  | none => true
  | some k => decide (n < k)

/-- One polling sub-loop of `main`
(`while (time.time() - start_time) < width and collector.experiment_running`):
the phase duration `dur` is counted in polling ticks and `n` is the global
count of samples taken so far.  Returns the emitted events and the new
global count. -/
def pollLoop (abort : Option Nat) (cyc dur n : Nat) : List Event × Nat :=
  match dur with
  | 0 => ([], n)
  | d + 1 =>
    if running abort n then
      let r := pollLoop abort cyc d (n + 1)
      (Event.sample cyc :: r.1, r.2)
    else ([], n)

/-- One iteration of the `for cycle in range(...)` body of `main`
(lines 40..101 of `CIC_pH_record_data.py`): set the first amplitude
(anodic if `anodicFirst` else cathodic) and switch the output on, poll for
the anodic pulse width, check the abort flag, set the opposite amplitude,
poll for the cathodic pulse width, check the flag, set level 0, poll for
the inter-pulse interval, and report whether the loop continues.  Note the
first sub-loop always uses the anodic width and the second always the
cathodic width, independently of `anodicFirst`, exactly as in the source. -/
def cycleBody (abort : Option Nat) (cfg : WaveCfg) (cyc n : Nat) :
    List Event × Nat × Bool :=
  let amp1 := if cfg.anodicFirst then cfg.anodicAmp else cfg.cathodicAmp
  let amp2 := if cfg.anodicFirst then cfg.cathodicAmp else cfg.anodicAmp
  let p1 := pollLoop abort cyc cfg.anodicPulseWidth n
  if running abort p1.2 then
    let p2 := pollLoop abort cyc cfg.cathodicPulseWidth p1.2
    if running abort p2.2 then
      let p3 := pollLoop abort cyc cfg.interPulseInterval p2.2
      (Event.setLevel amp1 :: Event.outputOn ::
        (p1.1 ++ Event.setLevel amp2 :: (p2.1 ++ Event.setLevel 0 :: p3.1)),
       p3.2, running abort p3.2)
    else
      (Event.setLevel amp1 :: Event.outputOn ::
        (p1.1 ++ Event.setLevel amp2 :: p2.1), p2.2, false)
  else
    (Event.setLevel amp1 :: Event.outputOn :: p1.1, p1.2, false)

/-- The cycle loop of `main`: run `r` remaining cycles starting at cycle
index `cyc` (the source passes `cycle + 1` as the recorded cycle number)
with global sample counter `n`; a `break` after any sub-loop ends the run. -/
def runCycles (abort : Option Nat) (cfg : WaveCfg) : Nat → Nat → Nat → List Event
  | _, 0, _ => []
  | cyc, r + 1, n =>
    let b := cycleBody abort cfg (cyc + 1) n
    if b.2.2 then b.1 ++ runCycles abort cfg (cyc + 1) r b.2.1 else b.1

/-- Full event trace of the phase sequencer of `main` for a given
configuration and abort schedule. -/
def mainTrace (cfg : WaveCfg) (abort : Option Nat) : List Event :=
  runCycles abort cfg 0 cfg.numPulses 0

/-- Number of collected data points in a trace (= length of the record
buffer after the run, since `collect_data_point` appends exactly one). -/
def countSamples : List Event → Nat
  | [] => 0
  | Event.sample _ :: rest => countSamples rest + 1
  | Event.setLevel _ :: rest => countSamples rest
  | Event.outputOn :: rest => countSamples rest

/-- Keep a trace up to and including its m-th sample event, dropping
everything after it. -/
def truncAfterSamples : Nat → List Event → List Event
  | _, [] => []
  | 0, _ :: _ => []
  | m + 1, Event.sample c :: rest => Event.sample c :: truncAfterSamples m rest
  | m + 1, Event.setLevel a :: rest => Event.setLevel a :: truncAfterSamples (m + 1) rest
  | m + 1, Event.outputOn :: rest => Event.outputOn :: truncAfterSamples (m + 1) rest

/-- The part of a trace strictly after its m-th sample event. -/
def afterSamples : Nat → List Event → List Event
  | 0, l => l
  | _ + 1, [] => []
  | m + 1, Event.sample _ :: rest => afterSamples m rest
  | m + 1, Event.setLevel _ :: rest => afterSamples (m + 1) rest
  | m + 1, Event.outputOn :: rest => afterSamples (m + 1) rest

/-- Group a trace into phase executions: each `setLevel` opens a phase and
the phase's duration is the number of samples collected until the next
`setLevel`; `outputOn` events are transparent. -/
def phasesAux : List Event → Option (Rat × Nat) → List (Rat × Nat)
  | [], none => []
  | [], some p => [p]
  | Event.setLevel a :: rest, none => phasesAux rest (some (a, 0))
  | Event.setLevel a :: rest, some p => p :: phasesAux rest (some (a, 0))
  | Event.sample _ :: rest, none => phasesAux rest none
  | Event.sample _ :: rest, some (a, m) => phasesAux rest (some (a, m + 1))
  | Event.outputOn :: rest, acc => phasesAux rest acc

/-- The sequence of `(amplitude, duration-in-ticks)` phase executions
emitted by a trace. -/
def phasesOf (l : List Event) : List (Rat × Nat) := phasesAux l none

/-- The events of one full (non-aborted) cycle with recorded cycle number
`cyc`. -/
def cycFull (cfg : WaveCfg) (cyc : Nat) : List Event :=
  Event.setLevel (if cfg.anodicFirst then cfg.anodicAmp else cfg.cathodicAmp) ::
  Event.outputOn ::
  (List.replicate cfg.anodicPulseWidth (Event.sample cyc) ++
   Event.setLevel (if cfg.anodicFirst then cfg.cathodicAmp else cfg.anodicAmp) ::
   (List.replicate cfg.cathodicPulseWidth (Event.sample cyc) ++
    Event.setLevel 0 ::
    List.replicate cfg.interPulseInterval (Event.sample cyc)))

/-- Concrete configuration used for witnesses: two cycles, anodic-first,
anodic width 2 ticks, cathodic width 1 tick, inter-pulse interval 1 tick,
amplitudes 4 mA anodic and -2 mA cathodic. -/
def wcfg0 : WaveCfg :=
  ⟨2, 1, 2, 1, 4 / 1000, -2 / 1000, true⟩

/-- Concrete cathodic-first configuration exhibiting the sequencing bug
(one cycle, anodic width 3 ticks, cathodic width 1 tick, interval 2). -/
def wcfgCathodic : WaveCfg :=
  ⟨1, 2, 3, 1, 4 / 1000, -2 / 1000, false⟩

/-- State of one acquisition session of `CIC_pH_record_data.main` driving a
`UnifiedDataCollector`, restricted to the effects relevant to termination:
record-buffer emptiness, the `data_saved` latch, instrument handle
presence and port-session liveness, and counters of performed exports and
of `smu.source.output = smu.OFF` commands actually issued on an open
session. -/
structure Session where
  bufNonempty : Bool
  saved : Bool
  keithleyPresent : Bool
  keithleyOpen : Bool
  phPresent : Bool
  phOpen : Bool
  exports : Nat
  offCmds : Nat
deriving DecidableEq, Repr

/-- `UnifiedDataCollector.export_data` (lines 254..294): returns at once
when `data_saved` is already true, otherwise writes the CSV/plot pair and
sets `data_saved = True`.  Note this class has no emptiness check. -/
def sessionExport (s : Session) : Session :=
  if s.saved then s else { s with exports := s.exports + 1, saved := true }

/-- `UnifiedDataCollector.close` (lines 328..342): closes the pH port,
then, if the Keithley handle exists, writes output-off and buffer-clear
and closes the VISA session; when the session was already closed the
writes raise and the bare `except` swallows the error, so no command
reaches the instrument. -/
def sessionClose (s : Session) : Session :=
  let s1 := if s.phPresent then { s with phOpen := false } else s
  if s1.keithleyPresent then
    if s1.keithleyOpen then
      { s1 with offCmds := s1.offCmds + 1, keithleyOpen := false }
    else s1
  else s1

/-- `UnifiedDataCollector.on_close` (lines 296..326): flips
`experiment_running` (not tracked here), writes output-off directly, calls
`close()` (which writes output-off again on the still-open session),
exports when the buffer is non-empty and not yet saved, then raises
`SystemExit` via `sys.exit(0)`. -/
def sessionOnClose (s : Session) : Session :=
  let s1 := if s.keithleyPresent && s.keithleyOpen then
      { s with offCmds := s.offCmds + 1 }
    else s
  let s2 := sessionClose s1
  if s2.bufNonempty && ! s2.saved then sessionExport s2 else s2

/-- The three ways an acquisition session of `main` terminates. -/
inductive SessionEnd where
  | normalDone
  | keyboardStop
  | windowClosed
deriving DecidableEq, Repr

/-- Top-level control flow of `main` in `CIC_pH_record_data.py`
(lines 20..114): on normal completion the export at line 105 runs inside
the `try`, then the `finally` calls `close()`; on `KeyboardInterrupt` the
`except` only prints and the `finally` calls `close()`; on a window close
the handler `on_close` runs to completion (its `sys.exit` raises
`SystemExit`, which `except KeyboardInterrupt` does not catch) and the
`finally` then calls `close()` on the already-closed session. -/
def mainSession (t : SessionEnd) (s : Session) : Session :=
  match t with
  | SessionEnd.normalDone => sessionClose (sessionExport s)
  | SessionEnd.keyboardStop => sessionClose s
  | SessionEnd.windowClosed => sessionClose (sessionOnClose s)

/-- A session at termination time with a non-empty buffer, nothing saved
yet, both instruments present with open ports, and zero effects so far. -/
def session0 : Session := ⟨true, false, true, true, true, true, 0, 0⟩

/-- Messages printed by the export routines. -/
inductive ExpMsg where
  | noData
  | alreadySaved
  | exported
deriving DecidableEq, Repr

/-- State touched by an export routine: the `data_saved` latch, the number
of CSV/PNG file pairs this run has written so far (each call that exports
uses a fresh `HH_MM_SS` timestamped base name, so a write never
overwrites), and the printed messages. -/
structure ExpState where
  saved : Bool
  pairs : Nat
  msgs : List ExpMsg
deriving DecidableEq, Repr

/-- `DataCollector.export_data` (lines 347..390): empty buffer prints
"No data to export"; `data_saved` true prints "Data already saved"; else
it writes one CSV/PNG pair and latches `data_saved`. -/
def export_data_dc (bufNonempty : Bool) (s : ExpState) : ExpState :=
  if ! bufNonempty then { s with msgs := s.msgs ++ [ExpMsg.noData] }
  else if s.saved then { s with msgs := s.msgs ++ [ExpMsg.alreadySaved] }
  else { saved := true, pairs := s.pairs + 1, msgs := s.msgs ++ [ExpMsg.exported] }

/-- `UnifiedDataCollector.export_data` (lines 254..294): `data_saved` true
returns silently with no message; else writes one CSV/PNG pair, prints the
exported paths, and latches `data_saved`. -/
def export_data_udc (s : ExpState) : ExpState :=
  if s.saved then s
  else { saved := true, pairs := s.pairs + 1, msgs := s.msgs ++ [ExpMsg.exported] }

/-- One parsed Keithley poll result. -/
structure KReading where
  voltage : Rat
  current : Rat
  elapsed : Rat
deriving DecidableEq, Repr

/-- Outcome oracle for one Keithley poll: each request/response round trip
(trigger write, reading query, source-value query, timer query) either
succeeds or raises; timeouts, malformed replies and `float()` parse
failures all surface as exceptions at this boundary. -/
structure KOracle where
  trigger : Except String Unit
  readingQ : Except String Rat
  sourceQ : Except String Rat
  timeQ : Except String Rat

/-- Body of the `try` block of `read_keithley_data` (identical in
`DataCollector` lines 216..233 and `UnifiedDataCollector` lines
149..163): trigger a measurement, then query the reading, the source
value and the elapsed time; the first exception aborts the sequence. -/
def keithleySeq (o : KOracle) : Except String KReading :=
  match o.trigger with
  | Except.error e => Except.error e
  | Except.ok _ =>
    match o.readingQ with
    | Except.error e => Except.error e
    | Except.ok v =>
      match o.sourceQ with
      | Except.error e => Except.error e
      | Except.ok c =>
        match o.timeQ with
        | Except.error e => Except.error e
        | Except.ok t => Except.ok ⟨v, c, t⟩

/-- The commands that `keithleySeq` actually issues on the port before its
first failure (the trigger write always reaches the port first). -/
def keithleySeqOps (o : KOracle) : List String :=
  "smu.measure.read(defbuffer1)" ::
  (match o.trigger with
   | Except.error _ => []
   | Except.ok _ =>
     "print(defbuffer1.readings[defbuffer1.n])" ::
     (match o.readingQ with
      | Except.error _ => []
      | Except.ok _ =>
        "print(defbuffer1.sourcevalues[defbuffer1.n])" ::
        (match o.sourceQ with
         | Except.error _ => []
         | Except.ok _ => ["print(timer.gettime())"])))

/-- `UnifiedDataCollector.read_keithley_data` (lines 144..166): returns
`None` at once when the enable flag is false or the handle is `None`,
without touching the port; otherwise runs the trigger/query sequence and
degrades any exception to `None` (logged, never raised). -/
def read_keithley_udc : Bool → Option KOracle → Option KReading × List String
  | false, _ => (none, [])
  | true, none => (none, [])
  | true, some o =>
    match keithleySeq o with
    | Except.ok r => (some r, keithleySeqOps o)
    | Except.error _ => (none, keithleySeqOps o ++ [])

/-- `DataCollector.read_keithley_data` (lines 216..242): no disabled
guard; with a `None` handle the first attribute access raises before any
port operation, the broad `except` catches it and the `*CLS` recovery
write raises on the `None` handle too and is swallowed, so the call
returns `None` having touched nothing.  With a live handle any exception
in the sequence is caught, a `*CLS` is attempted, and `None` is
returned. -/
def read_keithley_dc : Option KOracle → Option KReading × List String
  | none => (none, [])
  | some o =>
    match keithleySeq o with
    | Except.ok r => (some r, keithleySeqOps o)
    | Except.error _ => (none, keithleySeqOps o ++ ["*CLS"])

/-- One parsed pH-meter poll result. -/
structure PhReading where
  pH : Rat
  temperature : Rat
deriving DecidableEq, Repr

/-- `UnifiedDataCollector.read_ph_data` (lines 121..142): returns `None`
at once when the flag is false or the handle is `None`; otherwise one raw
read that either raises (exception logged, `None` returned) or yields a
line that the fixed regular expression parses to a reading or not. -/
def read_ph_udc : Bool → Option (Except String (Option PhReading)) →
    Option PhReading × List String
  | false, _ => (none, [])
  | true, none => (none, [])
  | true, some o =>
    match o with
    | Except.error _ => (none, ["read"])
    | Except.ok r => (r, ["read"])

/-- Classification of one raw line from the pH meter in
`DataCollector.read_ph_data`: a `$`-header line, a line both regular
expressions parse, or an unparsable line. -/
inductive PhLineKind where
  | header
  | parsed (ph temperature : Rat)
  | unparsed
deriving DecidableEq, Repr

/-- The bounded retry loop of `DataCollector.read_ph_data` (lines
184..209): up to `fuel` = 5 attempts; a raised read or an unparsable line
moves to the next attempt, a header line is skipped, a parsed line returns
immediately; after the attempts are exhausted the poll yields `None`. -/
def read_ph_dc_loop (o : Nat → Except String PhLineKind) (i fuel : Nat) :
    Option PhReading × List String :=
  match fuel with
  | 0 => (none, [])
  | f + 1 =>
    match o i with
    | Except.error _ =>
      let r := read_ph_dc_loop o (i + 1) f
      (r.1, "read" :: r.2)
    | Except.ok PhLineKind.header =>
      let r := read_ph_dc_loop o (i + 1) f
      (r.1, "read" :: r.2)
    | Except.ok (PhLineKind.parsed p t) => (some ⟨p, t⟩, ["read"])
    | Except.ok PhLineKind.unparsed =>
      let r := read_ph_dc_loop o (i + 1) f
      (r.1, "read" :: r.2)

/-- `DataCollector.read_ph_data` (lines 179..214): returns `None` at once
when the flag is false or the handle is `None`, without touching the port;
otherwise runs the 5-attempt retry loop. -/
def read_ph_dc : Bool → Option (Nat → Except String PhLineKind) →
    Option PhReading × List String
  | false, _ => (none, [])
  | true, none => (none, [])
  | true, some o => read_ph_dc_loop o 0 5

/-- A field of the Python data-point dict: `none` means the key is
missing, `some none` means the key is present with value `None`, and
`some (some v)` is a present value. -/
abbrev DictField (α : Type) : Type := Option (Option α)

/-- One unified data point as stored in `data_buffer` (dict with the keys
of the CSV header). -/
structure SampleRec where
  absolute_time : DictField String
  elapsed_time : DictField Rat
  current : DictField Rat
  voltage : DictField Rat
  pH : DictField Rat
  temperature : DictField Rat
  cycle_number : DictField Nat
deriving DecidableEq, Repr

/-- `UnifiedDataCollector.collect_data_point` (lines 168..200): timestamp,
then the pH reader, then the Keithley reader; a reader returning `None`
stores `None` in its fields (keys always present), and `cycle_number` is
added only when given. -/
def collect_data_point_udc (ts : String) (use_ph : Bool)
    (ph_meter : Option (Except String (Option PhReading)))
    (use_keithley : Bool) (keithley : Option KOracle)
    (cycle : Option Nat) : SampleRec :=
  let phr := (read_ph_udc use_ph ph_meter).1
  let kr := (read_keithley_udc use_keithley keithley).1
  { absolute_time := some (some ts)
    pH := some (phr.map (fun r => r.pH))
    temperature := some (phr.map (fun r => r.temperature))
    voltage := some (kr.map (fun r => r.voltage))
    current := some (kr.map (fun r => r.current))
    elapsed_time := some (kr.map (fun r => r.elapsed))
    cycle_number := cycle.map some }

/-- `DataCollector.collect_data_point` (lines 244..281): `elapsed_time`
starts from the local clock and is only overwritten by a successful
Keithley read; a disabled instrument is never polled and leaves its keys
absent entirely; a failed Keithley poll stores `None` for voltage and
current but keeps the local elapsed time. -/
def collect_data_point_dc (ts : String) (tLocal : Rat) (use_ph : Bool)
    (ph_meter : Option (Nat → Except String PhLineKind))
    (use_keithley : Bool) (keithley : Option KOracle)
    (cycle : Option Nat) : SampleRec :=
  let phr := (read_ph_dc use_ph ph_meter).1
  let kr := if use_keithley then (read_keithley_dc keithley).1 else none
  { absolute_time := some (some ts)
    elapsed_time :=
      if use_keithley then
        match kr with
        | some r => some (some r.elapsed)
        | none => some (some tLocal)
      else some (some tLocal)
    pH := if use_ph then some (phr.map (fun r => r.pH)) else none
    temperature := if use_ph then some (phr.map (fun r => r.temperature)) else none
    voltage := if use_keithley then some (kr.map (fun r => r.voltage)) else none
    current := if use_keithley then some (kr.map (fun r => r.current)) else none
    cycle_number := cycle.map some }

/-- A Keithley oracle whose final timer query times out. -/
def failingK : KOracle :=
  ⟨Except.ok (), Except.ok 1, Except.ok 2, Except.error "timeout"⟩

/-- Serialization of one string-valued dict entry:
`data_point.get(header, "")` yields `""` for a missing key, and Python's
csv writer writes a present `None` as the empty string. -/
def cellS : DictField String → String
  | some (some s) => s
  | some none => ""
  | none => ""

/-- Serialization of one rational-valued dict entry, as `cellS`. -/
def cellR : DictField Rat → String
  | some (some v) => reprStr v
  | some none => ""
  | none => ""

/-- Serialization of one natural-valued dict entry, as `cellS`. -/
def cellN : DictField Nat → String
  | some (some n) => reprStr n
  | some none => ""
  | none => ""

/-- The fixed, ordered CSV header of `export_data` (identical in
`DataCollector` lines 369..377 and `UnifiedDataCollector` lines
273..281). -/
def csvHeaders : List String :=
  ["absolute_time", "elapsed_time", "current", "voltage", "pH",
   "temperature", "cycle_number"]

/-- One CSV data row, in header order, from
`writer.writerow(... data_point.get(h, "") for h in headers ...)`. -/
def rowOf (s : SampleRec) : List String :=
  [cellS s.absolute_time, cellR s.elapsed_time, cellR s.current,
   cellR s.voltage, cellR s.pH, cellR s.temperature, cellN s.cycle_number]

/-- The rows of the exported CSV: `writer.writeheader()` then one row per
buffered data point, in buffer order. -/
def exportCsv (buf : List SampleRec) : List (List String) :=
  csvHeaders :: buf.map rowOf

/-- Collector state established by the constructors (the subset shared by
both classes). -/
structure CollectorState where
  use_ph_meter : Bool
  use_keithley : Bool
  data_buffer : List SampleRec
  experiment_running : Bool
  data_saved : Bool
deriving DecidableEq, Repr

/-- `DataCollector.init` (lines 29..51 of `data_collector.py`): when both
instruments are disabled it calls `sys.exit(0)` before any buffer, flag or
plot is created, so the constructor never returns; otherwise it builds the
initial state (and then initializes the plots). -/
def dc_init (use_ph use_k : Bool) : Except Nat CollectorState :=
  if ! (use_ph || use_k) then Except.error 0
  else Except.ok ⟨use_ph, use_k, [], true, false⟩

/-- `UnifiedDataCollector.init` (lines 24..83 of
`unified_data_collector.py`): no such check; it always constructs, with an
empty buffer, `experiment_running = True` and `data_saved = False`. -/
def udc_init (use_ph use_k : Bool) : CollectorState :=
  ⟨use_ph, use_k, [], true, false⟩

theorem pollLoop_none (cyc : Nat) : ∀ (d n : Nat),
    pollLoop none cyc d n = (List.replicate d (Event.sample cyc), n + d) := by
  intro d
  induction d with
  | zero => intro n; simp [pollLoop]
  | succ d ih =>
    intro n
    simp [pollLoop, running, ih, List.replicate_succ]
    omega

theorem pollLoop_some (cyc k : Nat) : ∀ (d n : Nat),
    pollLoop (some k) cyc d n =
      (List.replicate (min d (k - n)) (Event.sample cyc), n + min d (k - n)) := by
  intro d
  induction d with
  | zero => intro n; simp [pollLoop]
  | succ d ih =>
    intro n
    by_cases h : n < k
    · have hm : min (d + 1) (k - n) = min d (k - n - 1) + 1 := by omega
      simp [pollLoop, running, h, ih, hm, List.replicate_succ]
      omega
    · have hm : min (d + 1) (k - n) = 0 := by omega
      simp [pollLoop, running, h, hm]

theorem cycleBody_none (cfg : WaveCfg) (cyc n : Nat) :
    cycleBody none cfg cyc n =
      (cycFull cfg cyc,
       n + (cfg.anodicPulseWidth + cfg.cathodicPulseWidth + cfg.interPulseInterval),
       true) := by
  simp [cycleBody, cycFull, pollLoop_none, running]
  omega

theorem runCycles_none_succ (cfg : WaveCfg) (cyc r n : Nat) :
    runCycles none cfg cyc (r + 1) n =
      cycFull cfg (cyc + 1) ++ runCycles none cfg (cyc + 1) r
        (n + (cfg.anodicPulseWidth + cfg.cathodicPulseWidth + cfg.interPulseInterval)) := by
  simp [runCycles, cycleBody_none]

theorem countSamples_append : ∀ (l1 l2 : List Event),
    countSamples (l1 ++ l2) = countSamples l1 + countSamples l2 := by
  intro l1
  induction l1 with
  | nil => intro l2; simp [countSamples]
  | cons e l ih =>
    intro l2
    cases e <;> simp [countSamples, ih] <;> omega

theorem countSamples_replicate (d c : Nat) :
    countSamples (List.replicate d (Event.sample c)) = d := by
  induction d with
  | zero => simp [countSamples]
  | succ d ih => simp [List.replicate_succ, countSamples, ih]

theorem countSamples_cycFull (cfg : WaveCfg) (cyc : Nat) :
    countSamples (cycFull cfg cyc) =
      cfg.anodicPulseWidth + cfg.cathodicPulseWidth + cfg.interPulseInterval := by
  simp [cycFull, countSamples, countSamples_append, countSamples_replicate]
  omega

theorem trunc_zero (l : List Event) : truncAfterSamples 0 l = [] := by
  cases l with
  | nil => rfl
  | cons e r => cases e <;> rfl

theorem trunc_cons_setLevel (a : Rat) (l : List Event) (m : Nat) (h : 0 < m) :
    truncAfterSamples m (Event.setLevel a :: l) =
      Event.setLevel a :: truncAfterSamples m l := by
  cases m with
  | zero => omega
  | succ m => rfl

theorem trunc_cons_outputOn (l : List Event) (m : Nat) (h : 0 < m) :
    truncAfterSamples m (Event.outputOn :: l) =
      Event.outputOn :: truncAfterSamples m l := by
  cases m with
  | zero => omega
  | succ m => rfl

theorem trunc_replicate (c : Nat) : ∀ (m d : Nat) (rest : List Event), m ≤ d →
    truncAfterSamples m (List.replicate d (Event.sample c) ++ rest) =
      List.replicate m (Event.sample c) := by
  intro m
  induction m with
  | zero => intro d rest _; simp [trunc_zero]
  | succ m ih =>
    intro d rest h
    cases d with
    | zero => omega
    | succ d =>
      rw [List.replicate_succ, List.cons_append]
      simp only [truncAfterSamples]
      rw [ih d rest (by omega), List.replicate_succ]

theorem trunc_append_of_lt : ∀ (l rest : List Event) (m : Nat), countSamples l < m →
    truncAfterSamples m (l ++ rest) =
      l ++ truncAfterSamples (m - countSamples l) rest := by
  intro l
  induction l with
  | nil => intro rest m _; simp [countSamples]
  | cons e l ih =>
    intro rest m h
    cases e with
    | sample c =>
      cases m with
      | zero => simp [countSamples] at h
      | succ m =>
        simp only [countSamples] at h
        simp only [List.cons_append, truncAfterSamples, countSamples, List.append_eq]
        rw [ih rest m (by omega)]
        rw [show m + 1 - (countSamples l + 1) = m - countSamples l from by omega]
    | setLevel a =>
      cases m with
      | zero => omega
      | succ m =>
        simp only [countSamples] at h ⊢
        simp only [List.cons_append, truncAfterSamples, List.append_eq]
        rw [ih rest (m + 1) h]
    | outputOn =>
      cases m with
      | zero => omega
      | succ m =>
        simp only [countSamples] at h ⊢
        simp only [List.cons_append, truncAfterSamples, List.append_eq]
        rw [ih rest (m + 1) h]

theorem countSamples_trunc : ∀ (l : List Event) (m : Nat),
    countSamples (truncAfterSamples m l) = min m (countSamples l) := by
  intro l
  induction l with
  | nil => intro m; simp [truncAfterSamples, countSamples]
  | cons e l ih =>
    intro m
    cases m with
    | zero => cases e <;> simp [truncAfterSamples, countSamples, trunc_zero]
    | succ m =>
      cases e <;> simp [truncAfterSamples, countSamples, ih] <;> omega

theorem afterSamples_trunc : ∀ (l : List Event) (m : Nat),
    afterSamples m (truncAfterSamples m l) = [] := by
  intro l
  induction l with
  | nil => intro m; cases m <;> rfl
  | cons e l ih =>
    intro m
    cases m with
    | zero => cases e <;> rfl
    | succ m =>
      cases e <;> simp only [truncAfterSamples, afterSamples] <;> exact ih _

theorem trunc_append_exists : ∀ (l : List Event) (m : Nat),
    ∃ t, truncAfterSamples m l ++ t = l := by
  intro l
  induction l with
  | nil => intro m; refine ⟨[], ?_⟩; cases m <;> rfl
  | cons e l ih =>
    intro m
    cases m with
    | zero => exact ⟨e :: l, by simp [trunc_zero]⟩
    | succ m =>
      cases e with
      | sample c =>
        obtain ⟨t, ht⟩ := ih m
        exact ⟨t, by simp only [truncAfterSamples, List.cons_append, ht]⟩
      | setLevel a =>
        obtain ⟨t, ht⟩ := ih (m + 1)
        exact ⟨t, by simp only [truncAfterSamples, List.cons_append, ht]⟩
      | outputOn =>
        obtain ⟨t, ht⟩ := ih (m + 1)
        exact ⟨t, by simp only [truncAfterSamples, List.cons_append, ht]⟩

theorem cycleBody_some_a (cfg : WaveCfg) (cyc k n : Nat)
    (h1 : n < k) (h2 : k ≤ n + cfg.anodicPulseWidth) :
    cycleBody (some k) cfg cyc n =
      (Event.setLevel (if cfg.anodicFirst then cfg.anodicAmp else cfg.cathodicAmp) ::
       Event.outputOn :: List.replicate (k - n) (Event.sample cyc), k, false) := by
  have hm : min cfg.anodicPulseWidth (k - n) = k - n := by omega
  have hn : n + (k - n) = k := by omega
  simp [cycleBody, pollLoop_some, running, hm, hn]

theorem cycleBody_some_b (cfg : WaveCfg) (cyc k n : Nat)
    (h1 : n + cfg.anodicPulseWidth < k)
    (h2 : k ≤ n + cfg.anodicPulseWidth + cfg.cathodicPulseWidth) :
    cycleBody (some k) cfg cyc n =
      (Event.setLevel (if cfg.anodicFirst then cfg.anodicAmp else cfg.cathodicAmp) ::
       Event.outputOn ::
       (List.replicate cfg.anodicPulseWidth (Event.sample cyc) ++
        Event.setLevel (if cfg.anodicFirst then cfg.cathodicAmp else cfg.anodicAmp) ::
        List.replicate (k - n - cfg.anodicPulseWidth) (Event.sample cyc)),
       k, false) := by
  have hm1 : min cfg.anodicPulseWidth (k - n) = cfg.anodicPulseWidth := by omega
  have hr : n + cfg.anodicPulseWidth < k := h1
  have hm2 : min cfg.cathodicPulseWidth (k - (n + cfg.anodicPulseWidth)) =
      k - n - cfg.anodicPulseWidth := by omega
  have hn2 : n + cfg.anodicPulseWidth + (k - n - cfg.anodicPulseWidth) = k := by omega
  simp [cycleBody, pollLoop_some, running, hm1, hm2, hr, hn2]

theorem cycleBody_some_c (cfg : WaveCfg) (cyc k n : Nat)
    (h1 : n + cfg.anodicPulseWidth + cfg.cathodicPulseWidth < k)
    (h2 : k ≤ n + cfg.anodicPulseWidth + cfg.cathodicPulseWidth +
      cfg.interPulseInterval) :
    cycleBody (some k) cfg cyc n =
      (Event.setLevel (if cfg.anodicFirst then cfg.anodicAmp else cfg.cathodicAmp) ::
       Event.outputOn ::
       (List.replicate cfg.anodicPulseWidth (Event.sample cyc) ++
        Event.setLevel (if cfg.anodicFirst then cfg.cathodicAmp else cfg.anodicAmp) ::
        (List.replicate cfg.cathodicPulseWidth (Event.sample cyc) ++
         Event.setLevel 0 ::
         List.replicate (k - n - cfg.anodicPulseWidth - cfg.cathodicPulseWidth)
           (Event.sample cyc))),
       k, false) := by
  have hm1 : min cfg.anodicPulseWidth (k - n) = cfg.anodicPulseWidth := by omega
  have hr1 : n + cfg.anodicPulseWidth < k := by omega
  have hm2 : min cfg.cathodicPulseWidth (k - (n + cfg.anodicPulseWidth)) =
      cfg.cathodicPulseWidth := by omega
  have hr2 : n + cfg.anodicPulseWidth + cfg.cathodicPulseWidth < k := h1
  have hm3 : min cfg.interPulseInterval
      (k - (n + cfg.anodicPulseWidth + cfg.cathodicPulseWidth)) =
      k - n - cfg.anodicPulseWidth - cfg.cathodicPulseWidth := by omega
  have hn3 : n + cfg.anodicPulseWidth + cfg.cathodicPulseWidth +
      (k - n - cfg.anodicPulseWidth - cfg.cathodicPulseWidth) = k := by omega
  simp [cycleBody, pollLoop_some, running, hm1, hm2, hm3, hr1, hr2, hn3]

theorem cycleBody_some_d (cfg : WaveCfg) (cyc k n : Nat)
    (h : n + cfg.anodicPulseWidth + cfg.cathodicPulseWidth +
      cfg.interPulseInterval < k) :
    cycleBody (some k) cfg cyc n =
      (cycFull cfg cyc,
       n + (cfg.anodicPulseWidth + cfg.cathodicPulseWidth + cfg.interPulseInterval),
       true) := by
  have hm1 : min cfg.anodicPulseWidth (k - n) = cfg.anodicPulseWidth := by omega
  have hr1 : n + cfg.anodicPulseWidth < k := by omega
  have hm2 : min cfg.cathodicPulseWidth (k - (n + cfg.anodicPulseWidth)) =
      cfg.cathodicPulseWidth := by omega
  have hr2 : n + cfg.anodicPulseWidth + cfg.cathodicPulseWidth < k := by omega
  have hm3 : min cfg.interPulseInterval
      (k - (n + cfg.anodicPulseWidth + cfg.cathodicPulseWidth)) =
      cfg.interPulseInterval := by omega
  have hr3 : n + cfg.anodicPulseWidth + cfg.cathodicPulseWidth +
      cfg.interPulseInterval < k := h
  simp [cycleBody, cycFull, pollLoop_some, running, hm1, hm2, hm3, hr1, hr2, hr3]
  omega

theorem runCycles_abort (cfg : WaveCfg) (k : Nat) :
    ∀ (r cyc n : Nat), n < k →
      runCycles (some k) cfg cyc r n =
        truncAfterSamples (k - n) (runCycles none cfg cyc r n) := by
  intro r
  induction r with
  | zero => intro cyc n _; simp [runCycles, truncAfterSamples]
  | succ r ih =>
    intro cyc n hn
    rw [runCycles_none_succ]
    have h0 : 0 < k - n := by omega
    by_cases hA : k ≤ n + cfg.anodicPulseWidth
    · simp only [runCycles]
      rw [cycleBody_some_a cfg (cyc + 1) k n hn hA]
      simp only [cycFull, List.cons_append, List.append_assoc]
      rw [trunc_cons_setLevel _ _ _ h0, trunc_cons_outputOn _ _ h0,
        trunc_replicate _ _ _ _ (by omega)]
      simp
    · by_cases hB : k ≤ n + cfg.anodicPulseWidth + cfg.cathodicPulseWidth
      · simp only [runCycles]
        rw [cycleBody_some_b cfg (cyc + 1) k n (by omega) hB]
        simp only [cycFull, List.cons_append, List.append_assoc]
        rw [trunc_cons_setLevel _ _ _ h0, trunc_cons_outputOn _ _ h0,
          trunc_append_of_lt _ _ _
            (by rw [countSamples_replicate]; omega),
          countSamples_replicate,
          trunc_cons_setLevel _ _ _ (by omega),
          trunc_replicate _ _ _ _ (by omega)]
        simp
      · by_cases hC : k ≤ n + cfg.anodicPulseWidth + cfg.cathodicPulseWidth +
          cfg.interPulseInterval
        · simp only [runCycles]
          rw [cycleBody_some_c cfg (cyc + 1) k n (by omega) hC]
          simp only [cycFull, List.cons_append, List.append_assoc]
          rw [trunc_cons_setLevel _ _ _ h0, trunc_cons_outputOn _ _ h0,
            trunc_append_of_lt _ _ _
              (by rw [countSamples_replicate]; omega),
            countSamples_replicate,
            trunc_cons_setLevel _ _ _ (by omega),
            trunc_append_of_lt _ _ _
              (by rw [countSamples_replicate]; omega),
            countSamples_replicate,
            trunc_cons_setLevel _ _ _ (by omega),
            trunc_replicate _ _ _ _ (by omega)]
          simp
        · simp only [runCycles]
          rw [cycleBody_some_d cfg (cyc + 1) k n (by omega)]
          rw [trunc_append_of_lt _ _ _
              (by rw [countSamples_cycFull]; omega),
            countSamples_cycFull]
          rw [ih (cyc + 1)
            (n + (cfg.anodicPulseWidth + cfg.cathodicPulseWidth +
              cfg.interPulseInterval)) (by omega)]
          rw [show k - (n + (cfg.anodicPulseWidth + cfg.cathodicPulseWidth +
            cfg.interPulseInterval)) =
            k - n - (cfg.anodicPulseWidth + cfg.cathodicPulseWidth +
              cfg.interPulseInterval) from by omega]
          simp

theorem phasesAux_replicate (c d : Nat) : ∀ (m : Nat) (a : Rat) (rest : List Event),
    phasesAux (List.replicate d (Event.sample c) ++ rest) (some (a, m)) =
      phasesAux rest (some (a, m + d)) := by
  induction d with
  | zero => intro m a rest; simp
  | succ d ih =>
    intro m a rest
    rw [List.replicate_succ, List.cons_append]
    simp only [phasesAux]
    rw [ih (m + 1) a rest, show m + 1 + d = m + (d + 1) from by omega]

theorem phasesAux_replicate_end (c d : Nat) : ∀ (m : Nat) (a : Rat),
    phasesAux (List.replicate d (Event.sample c)) (some (a, m)) = [(a, m + d)] := by
  induction d with
  | zero => intro m a; simp [phasesAux]
  | succ d ih =>
    intro m a
    rw [List.replicate_succ]
    simp only [phasesAux]
    rw [ih (m + 1) a, show m + 1 + d = m + (d + 1) from by omega]

/-- C7: with `numCycles = 2` and `anodicFirst = true`, and
`experiment_running` staying true throughout (`abort = none`), the phase
sequencer of `main` emits exactly six phase executions, in order anodic,
cathodic, rest, anodic, cathodic, rest, pairing the anodic amplitude with
the anodic pulse width, the cathodic amplitude with the cathodic pulse
width and amplitude zero with the inter-pulse interval, in both cycles. -/
theorem phase_sequencer_c7 (d1 d2 d3 : Nat) (aA aC : Rat) :
    phasesOf (mainTrace ⟨2, d3, d1, d2, aA, aC, true⟩ none) =
      [(aA, d1), (aC, d2), (0, d3), (aA, d1), (aC, d2), (0, d3)] := by
  show phasesAux (runCycles none ⟨2, d3, d1, d2, aA, aC, true⟩ 0 2 0) none = _
  rw [runCycles_none_succ, runCycles_none_succ]
  simp only [runCycles, List.append_nil]
  simp [cycFull, phasesAux, phasesAux_replicate, phasesAux_replicate_end,
    List.append_assoc, List.cons_append, -Prod.mk_zero_zero]

/-- Witness for C7 at concrete durations and amplitudes. -/
theorem phase_sequencer_c7_witness :
    phasesOf (mainTrace ⟨2, 1, 2, 1, 4 / 1000, -2 / 1000, true⟩ none) =
      [(4 / 1000, 2), (-2 / 1000, 1), (0, 1), (4 / 1000, 2), (-2 / 1000, 1),
       (0, 1)] :=
  phase_sequencer_c7 2 1 1 (4 / 1000) (-2 / 1000)

/-- C3 (code bug, acknowledged by the BUG comment in
`waveform_parameters.py`): with `anodicFirst = false` the sequencer does
not reject the configuration — it emits a non-empty trace whose first
phase pairs the cathodic amplitude with the anodic pulse width (3 ticks
here, instead of the cathodic width 1), and whose second phase pairs the
anodic amplitude with the cathodic width. -/
theorem cathodic_first_mispairing_c3 :
    phasesOf (mainTrace wcfgCathodic none) =
      [(wcfgCathodic.cathodicAmp, wcfgCathodic.anodicPulseWidth),
       (wcfgCathodic.anodicAmp, wcfgCathodic.cathodicPulseWidth),
       (0, wcfgCathodic.interPulseInterval)] ∧
    wcfgCathodic.anodicFirst = false ∧
    wcfgCathodic.anodicPulseWidth ≠ wcfgCathodic.cathodicPulseWidth :=
  ⟨rfl, rfl, by decide⟩

/-- C6: if `experiment_running` flips to false at global poll `k`, strictly
inside the run (0 < k < total sample count), then the emitted trace is
exactly the full trace truncated right after the k-th sample: the record
buffer holds exactly the k samples collected up to that point, nothing at
all — in particular no further `smu.source.level` command and no further
phase — is emitted after the abort, and the aborted trace is a prefix of
the unaborted one. -/
theorem abort_truncates_c6 (cfg : WaveCfg) (k : Nat) (h0 : 0 < k)
    (h1 : k < countSamples (mainTrace cfg none)) :
    mainTrace cfg (some k) = truncAfterSamples k (mainTrace cfg none) ∧
    countSamples (mainTrace cfg (some k)) = k ∧
    afterSamples k (mainTrace cfg (some k)) = [] ∧
    ∃ t, mainTrace cfg (some k) ++ t = mainTrace cfg none := by
  have heq : mainTrace cfg (some k) = truncAfterSamples k (mainTrace cfg none) := by
    have h := runCycles_abort cfg k cfg.numPulses 0 0 h0
    simpa [mainTrace] using h
  refine ⟨heq, ?_, ?_, ?_⟩
  · rw [heq, countSamples_trunc]; omega
  · rw [heq]; exact afterSamples_trunc _ _
  · rw [heq]; exact trunc_append_exists _ _

/-- Witness for C6: the configuration `wcfg0` has 8 polling ticks in a
full run, and aborting at tick 3 leaves exactly the 3 collected samples. -/
theorem abort_truncates_c6_witness :
    (0 < 3 ∧ 3 < countSamples (mainTrace wcfg0 none)) ∧
    (mainTrace wcfg0 (some 3) = truncAfterSamples 3 (mainTrace wcfg0 none) ∧
     countSamples (mainTrace wcfg0 (some 3)) = 3 ∧
     afterSamples 3 (mainTrace wcfg0 (some 3)) = [] ∧
     ∃ t, mainTrace wcfg0 (some 3) ++ t = mainTrace wcfg0 none) :=
  ⟨⟨by decide, by decide⟩, abort_truncates_c6 wcfg0 3 (by decide) (by decide)⟩

/-- C1 (code bug): from a termination-time state with a non-empty buffer
and `data_saved = false`, the normal-completion and window-close paths
perform the export exactly once, but the keyboard-interrupt path performs
no export at all — `main`'s `except KeyboardInterrupt` only prints and the
`finally` calls `close()`, which closes ports and never exports, despite
printing "saving final plot". -/
theorem interrupt_skips_export_c1 :
    session0.bufNonempty = true ∧ session0.saved = false ∧
    (mainSession SessionEnd.keyboardStop session0).exports = 0 ∧
    (mainSession SessionEnd.keyboardStop session0).saved = false ∧
    (mainSession SessionEnd.normalDone session0).exports = 1 ∧
    (mainSession SessionEnd.windowClosed session0).exports = 1 := by
  decide

/-- C4 counterexample: on a plot-window close from a live session the
output-off command is issued twice, not exactly once. -/
theorem window_close_double_off_c4 :
    (mainSession SessionEnd.windowClosed session0).offCmds = 2 ∧
    (mainSession SessionEnd.windowClosed session0).offCmds ≠ 1 := by
  decide

/-- C4 amended: over a single session termination from a live Keithley
session, the output-off command is issued exactly once on normal
completion and on keyboard interrupt (by `close()`), but exactly twice on
a plot-window close — once directly by `on_close` and once by the
`close()` it invokes; the top-level `finally`'s `close()` then finds the
VISA session already closed and its write is swallowed. -/
theorem off_command_counts_c4 (s : Session) (hk : s.keithleyPresent = true)
    (ho : s.keithleyOpen = true) (hz : s.offCmds = 0) :
    (mainSession SessionEnd.normalDone s).offCmds = 1 ∧
    (mainSession SessionEnd.keyboardStop s).offCmds = 1 ∧
    (mainSession SessionEnd.windowClosed s).offCmds = 2 := by
  obtain ⟨b, sv, kp, ko, pp, po, ex, off⟩ := s
  dsimp only at hk ho hz
  subst hk; subst ho; subst hz
  cases b <;> cases sv <;> cases pp <;> cases po <;>
    simp [mainSession, sessionClose, sessionOnClose, sessionExport]

/-- Witness for C4's amended statement at the concrete live session. -/
theorem off_command_counts_c4_witness :
    (session0.keithleyPresent = true ∧ session0.keithleyOpen = true ∧
      session0.offCmds = 0) ∧
    ((mainSession SessionEnd.normalDone session0).offCmds = 1 ∧
     (mainSession SessionEnd.keyboardStop session0).offCmds = 1 ∧
     (mainSession SessionEnd.windowClosed session0).offCmds = 2) :=
  ⟨⟨rfl, rfl, rfl⟩, off_command_counts_c4 session0 rfl rfl rfl⟩

/-- C2 counterexample: `UnifiedDataCollector.export_data` called a second
time after `data_saved` became true returns silently — it never reports
"already saved" (its message list is unchanged from the first call). -/
theorem udc_second_call_silent_c2 :
    ExpMsg.alreadySaved ∉ (export_data_udc (export_data_udc ⟨false, 0, []⟩)).msgs ∧
    (export_data_udc (export_data_udc ⟨false, 0, []⟩)).saved = true ∧
    (export_data_udc (export_data_udc ⟨false, 0, []⟩)).msgs =
      (export_data_udc ⟨false, 0, []⟩).msgs := by
  decide

/-- C2 amended: both `export_data` implementations are idempotent — after
two calls from a fresh state (non-empty buffer for `DataCollector`)
exactly one CSV/PNG pair has been written, the second call writes and
overwrites nothing and leaves `data_saved` true; `DataCollector`'s second
call reports "Data already saved" while `UnifiedDataCollector`'s second
call returns without any report. -/
theorem export_idempotent_c2 (b : Bool) (hb : b = true) :
    export_data_dc b (export_data_dc b ⟨false, 0, []⟩) =
      ⟨true, 1, [ExpMsg.exported, ExpMsg.alreadySaved]⟩ ∧
    export_data_udc (export_data_udc ⟨false, 0, []⟩) =
      ⟨true, 1, [ExpMsg.exported]⟩ := by
  subst hb; exact ⟨rfl, rfl⟩

/-- Witness for C2's amended statement with a non-empty buffer. -/
theorem export_idempotent_c2_witness :
    (true = true) ∧
    (export_data_dc true (export_data_dc true ⟨false, 0, []⟩) =
      ⟨true, 1, [ExpMsg.exported, ExpMsg.alreadySaved]⟩ ∧
     export_data_udc (export_data_udc ⟨false, 0, []⟩) =
      ⟨true, 1, [ExpMsg.exported]⟩) :=
  ⟨rfl, export_idempotent_c2 true rfl⟩

/-- C5: a Keithley trigger/query sequence that raises anywhere makes the
reader return `None` for that poll in both collector classes (the
exception is logged and cannot propagate — the broad `except` returns
`None`), and the merged data point carries `None` for voltage, current and
(in `UnifiedDataCollector`) elapsed time, while the pH fields are exactly
what the pH reader alone produced, unaffected by the Keithley failure. -/
theorem keithley_failure_isolated_c5
    (o : KOracle) (e : String) (he : keithleySeq o = Except.error e)
    (use_ph : Bool) (ph : Option (Except String (Option PhReading)))
    (phd : Option (Nat → Except String PhLineKind))
    (ts : String) (tLocal : Rat) (cyc : Option Nat) :
    (read_keithley_udc true (some o)).1 = none ∧
    (read_keithley_dc (some o)).1 = none ∧
    (collect_data_point_udc ts use_ph ph true (some o) cyc).voltage = some none ∧
    (collect_data_point_udc ts use_ph ph true (some o) cyc).current = some none ∧
    (collect_data_point_udc ts use_ph ph true (some o) cyc).elapsed_time = some none ∧
    (collect_data_point_udc ts use_ph ph true (some o) cyc).pH =
      some ((read_ph_udc use_ph ph).1.map (fun r => r.pH)) ∧
    (collect_data_point_udc ts use_ph ph true (some o) cyc).temperature =
      some ((read_ph_udc use_ph ph).1.map (fun r => r.temperature)) ∧
    (collect_data_point_dc ts tLocal use_ph phd true (some o) cyc).voltage =
      some none ∧
    (collect_data_point_dc ts tLocal use_ph phd true (some o) cyc).current =
      some none ∧
    (collect_data_point_dc ts tLocal use_ph phd true (some o) cyc).elapsed_time =
      some (some tLocal) ∧
    (collect_data_point_dc ts tLocal use_ph phd true (some o) cyc).pH =
      (if use_ph then some ((read_ph_dc use_ph phd).1.map (fun r => r.pH))
       else none) := by
  refine ⟨?_, ?_, ?_, ?_, ?_, ?_, ?_, ?_, ?_, ?_, ?_⟩ <;>
    simp [read_keithley_udc, read_keithley_dc, collect_data_point_udc,
      collect_data_point_dc, he]

/-- Witness for C5 with a timer query that times out. -/
theorem keithley_failure_isolated_c5_witness :
    keithleySeq failingK = Except.error "timeout" ∧
    ((read_keithley_udc true (some failingK)).1 = none ∧
     (read_keithley_dc (some failingK)).1 = none ∧
     (collect_data_point_udc "t" false none true (some failingK) none).voltage =
       some none ∧
     (collect_data_point_udc "t" false none true (some failingK) none).current =
       some none ∧
     (collect_data_point_udc "t" false none true (some failingK) none).elapsed_time =
       some none ∧
     (collect_data_point_udc "t" false none true (some failingK) none).pH =
       some ((read_ph_udc false none).1.map (fun r => r.pH)) ∧
     (collect_data_point_udc "t" false none true (some failingK) none).temperature =
       some ((read_ph_udc false none).1.map (fun r => r.temperature)) ∧
     (collect_data_point_dc "t" 0 false none true (some failingK) none).voltage =
       some none ∧
     (collect_data_point_dc "t" 0 false none true (some failingK) none).current =
       some none ∧
     (collect_data_point_dc "t" 0 false none true (some failingK) none).elapsed_time =
       some (some 0) ∧
     (collect_data_point_dc "t" 0 false none true (some failingK) none).pH =
       (if false then some ((read_ph_dc false none).1.map (fun r => r.pH))
        else none)) :=
  ⟨rfl, keithley_failure_isolated_c5 failingK "timeout" rfl false none none
    "t" 0 none⟩

/-- C9: a reader whose instrument is disabled (enable flag false, or handle
`None`) returns `None` with an empty port-operation list.  For
`DataCollector.read_keithley_data`, which has no explicit guard, the class
invariant that a false flag implies a `None` handle (the handle is only
assigned when the flag is true) makes the same conclusion hold: the write
on the `None` handle raises before reaching any port. -/
theorem disabled_readers_no_port_ops_c9
    (uk : Bool) (hk : Option KOracle)
    (up : Bool) (hp : Option (Except String (Option PhReading)))
    (upd : Bool) (hpd : Option (Nat → Except String PhLineKind))
    (ukd : Bool) (hkd : Option KOracle)
    (h1 : uk = false ∨ hk = none)
    (h2 : up = false ∨ hp = none)
    (h3 : upd = false ∨ hpd = none)
    (hinv : ukd = false → hkd = none)
    (h4 : ukd = false ∨ hkd = none) :
    read_keithley_udc uk hk = (none, []) ∧
    read_ph_udc up hp = (none, []) ∧
    read_ph_dc upd hpd = (none, []) ∧
    read_keithley_dc hkd = (none, []) := by
  refine ⟨?_, ?_, ?_, ?_⟩
  · rcases h1 with h | h
    · subst h; rfl
    · subst h; cases uk <;> rfl
  · rcases h2 with h | h
    · subst h; rfl
    · subst h; cases up <;> rfl
  · rcases h3 with h | h
    · subst h; rfl
    · subst h; cases upd <;> rfl
  · rcases h4 with h | h
    · rw [hinv h]; rfl
    · subst h; rfl

/-- Witness for C9 with every instrument disabled. -/
theorem disabled_readers_no_port_ops_c9_witness :
    read_keithley_udc false none = (none, []) ∧
    read_ph_udc false none = (none, []) ∧
    read_ph_dc false none = (none, []) ∧
    read_keithley_dc none = (none, []) :=
  disabled_readers_no_port_ops_c9 false none false none false none false none
    (Or.inl rfl) (Or.inl rfl) (Or.inl rfl) (fun _ => rfl) (Or.inl rfl)

/-- C8: the exported CSV starts with the fixed header row
`absolute_time, elapsed_time, current, voltage, pH, temperature,
cycle_number` in exactly that order, has one data row per buffered sample
in buffer order, and every absent field (key missing or value `None`)
serializes as the empty cell — never as the text "None" or "null". -/
theorem csv_shape_c8 (buf : List SampleRec)
    (f : DictField Rat) (g : DictField String) (h : DictField Nat)
    (hf : f = none ∨ f = some none)
    (hg : g = none ∨ g = some none)
    (hh : h = none ∨ h = some none) :
    (exportCsv buf).head? =
      some ["absolute_time", "elapsed_time", "current", "voltage", "pH",
        "temperature", "cycle_number"] ∧
    (exportCsv buf).length = buf.length + 1 ∧
    (exportCsv buf).tail = buf.map rowOf ∧
    cellR f = "" ∧ cellS g = "" ∧ cellN h = "" ∧
    cellR f ≠ "None" ∧ cellR f ≠ "null" ∧ cellS g ≠ "None" ∧
    cellN h ≠ "None" := by
  have cf : cellR f = "" := by rcases hf with h' | h' <;> subst h' <;> rfl
  have cg : cellS g = "" := by rcases hg with h' | h' <;> subst h' <;> rfl
  have ch : cellN h = "" := by rcases hh with h' | h' <;> subst h' <;> rfl
  refine ⟨rfl, by simp [exportCsv], rfl, cf, cg, ch, ?_, ?_, ?_, ?_⟩
  · rw [cf]; decide
  · rw [cf]; decide
  · rw [cg]; decide
  · rw [ch]; decide

/-- Witness for C8 on the empty buffer with one absent field of each
shape. -/
theorem csv_shape_c8_witness :
    (((some none : DictField Rat) = none ∨
       (some none : DictField Rat) = some none) ∧
     ((none : DictField String) = none ∨
       (none : DictField String) = some none) ∧
     ((some none : DictField Nat) = none ∨
       (some none : DictField Nat) = some none)) ∧
    ((exportCsv []).head? =
      some ["absolute_time", "elapsed_time", "current", "voltage", "pH",
        "temperature", "cycle_number"] ∧
     (exportCsv []).length = List.length ([] : List SampleRec) + 1 ∧
     (exportCsv []).tail = List.map rowOf [] ∧
     cellR (some none) = "" ∧ cellS none = "" ∧ cellN (some none) = "" ∧
     cellR (some none) ≠ "None" ∧ cellR (some none) ≠ "null" ∧
     cellS none ≠ "None" ∧ cellN (some none) ≠ "None") :=
  ⟨⟨Or.inr rfl, Or.inl rfl, Or.inr rfl⟩,
   csv_shape_c8 [] (some none) none (some none)
     (Or.inr rfl) (Or.inl rfl) (Or.inr rfl)⟩

/-- C10: constructing `DataCollector` with both instruments disabled exits
the process with code 0 before any state is created (the constructor never
returns a state), while `UnifiedDataCollector` accepts the same
configuration and constructs normally with an empty buffer,
`experiment_running = True` and `data_saved = False`. -/
theorem all_disabled_init_c10 :
    dc_init false false = Except.error 0 ∧
    udc_init false false = ⟨false, false, [], true, false⟩ ∧
    (udc_init false false).data_buffer = [] ∧
    (udc_init false false).experiment_running = true ∧
    (udc_init false false).data_saved = false :=
  ⟨rfl, rfl, rfl, rfl, rfl⟩

end ElectroEval
